import Mathlib

/-!
# Verification of the VIN decoding/validation core

Shallow embedding of `core/vin.go` (package `core` of the `vin` repository).
Go strings are modelled as `List Char` (all inputs of interest are ASCII, where
byte indices and rune indices coincide).  A Go function that can panic is
modelled with an `Option` layer: `none` is a runtime panic (out-of-range slice
index, `strconv.Atoi` failure inside `calculateScore`).  The two external
lookup collaborators (`FindWMInfo`, `vds.FindVDSInfo`) and the current
calendar year (`time.Now().Year()`) are parameters of the embedding.
-/

set_option autoImplicit false

namespace Vin

/-- Go string slicing `s[a:b]`: defined when `a ≤ b ≤ len s`, otherwise the
program panics (`none`). `s[a:]` is `s[a:len s]` and `s[:b]` is `s[0:b]`. -/
def goSlice (s : List Char) (a b : Nat) : Option (List Char) :=
  if a ≤ b ∧ b ≤ s.length then some ((s.drop a).take (b - a)) else none

/-- Accumulating loop of Go `strconv.Atoi`'s fast path over the digit part:
`none` as soon as a non-digit byte is met. -/
def digitsValAux : Nat → List Char → Option Nat
  | acc, [] => some acc
  | acc, c :: cs =>
    if c.isDigit then digitsValAux (acc * 10 + (c.toNat - '0'.toNat)) cs else none

/-- Digit run of `strconv.Atoi`: a non-empty all-digit string evaluates to its
decimal value, anything else is a syntax error (`none`). -/
def digitsVal : List Char → Option Nat
  | [] => none
  | c :: cs => digitsValAux 0 (c :: cs)

/-- Go `strconv.Atoi(s)` together with its error: `some v` when `s` is an
optional sign followed by at least one digit (fast path, `len s < 19`, which
covers every call site in `vin.go`: substrings of ≤ 6 characters and single
characters), `none` when `Atoi` reports a syntax error. -/
def goAtoiE (s : List Char) : Option Int :=
  match s with
  | [] => none
  | c :: rest =>
    if c = '-' then (digitsVal rest).map (fun n => -(Int.ofNat n))
    else if c = '+' then (digitsVal rest).map (fun n => Int.ofNat n)
    else (digitsVal (c :: rest)).map (fun n => Int.ofNat n)

/-- The integer the call `serial, _ := strconv.Atoi(...)` leaves in `serial`:
on a syntax error Go's `Atoi` returns the value `0`, and `getUniqueSerial`
discards the error. -/
def goAtoi (s : List Char) : Int :=
  (goAtoiE s).getD 0

/-- `getCharacterMap` from `vin.go`: the transliteration map for the 23 VIN
letters (A–Z without I, O, Q); `none` models absence from the Go map. -/
def getCharacterMap (c : Char) : Option Nat :=
  match c with
  | 'A' => some 1
  | 'B' => some 2
  | 'C' => some 3
  | 'D' => some 4
  | 'E' => some 5
  | 'F' => some 6
  | 'G' => some 7
  | 'H' => some 8
  | 'J' => some 1
  | 'K' => some 2
  | 'L' => some 3
  | 'M' => some 4
  | 'N' => some 5
  | 'P' => some 7
  | 'R' => some 9
  | 'S' => some 2
  | 'T' => some 3
  | 'U' => some 4
  | 'V' => some 5
  | 'W' => some 6
  | 'X' => some 7
  | 'Y' => some 8
  | 'Z' => some 9
  | _ => none

/-- The per-character value used by `calculateScore`: the character map is
consulted first; on a miss the character is fed to `strconv.Atoi`, whose
error branch panics (`none`).  `Int.toNat` is harmless: a one-character
string accepted by `Atoi` is a single digit, hence non-negative. -/
def charValue (c : Char) : Option Nat :=
  match getCharacterMap c with
  | some v => some v
  | none => (goAtoiE [c]).map Int.toNat

/-- The position weight slice of `calculateScore`. -/
def weights : List Nat := [8, 7, 6, 5, 4, 3, 2, 10, 0, 9, 8, 7, 6, 5, 4, 3, 2]

/-- The accumulation loop of `calculateScore`: walks the characters with the
remaining weights; an unscorable character panics via `Atoi`, and running past
the end of the weight slice (`weights[k]` with `k ≥ 17`) panics with an index
out of range. -/
def scoreSum : List Char → List Nat → Option Nat
  | [], _ => some 0
  | _ :: _, [] => none
  | c :: cs, w :: ws =>
    match charValue c, scoreSum cs ws with
    | some v, some rest => some (v * w + rest)
    | _, _ => none

/-- `calculateScore` from `vin.go`: weighted transliteration sum modulo 11,
rendered as the string `"X"` for 10 and `strconv.Itoa(mod)` otherwise;
`none` is a panic. -/
def calculateScore (fullvin : List Char) : Option String :=
  match scoreSum fullvin weights with
  | none => none
  | some result =>
    if result % 11 = 10 then some "X" else some (Nat.repr (result % 11))

/-- `strings.ContainsAny(fullvin, "IOQ")`. -/
def containsIOQ (s : List Char) : Bool :=
  s.any (fun c => c == 'I' || c == 'O' || c == 'Q')

/-- The error values `ValidateVIN` can return. -/
inductive ValidationError where
  | lengthError
  | illegalCharacterError
  | checkDigitError (found expected : String)
deriving DecidableEq, Repr

/-- Outcome of `ValidateVIN`: Go's `nil` error, a non-nil error, or a panic
raised inside `calculateScore`. -/
inductive VRes where
  | ok
  | fail (e : ValidationError)
  | panics
deriving DecidableEq, Repr

/-- `ValidateVIN` from `vin.go`: length gate, the I/O/Q charset gate, then the
check digit `fullvin[8:9]` is compared against `calculateScore fullvin`. -/
def ValidateVIN (fullvin : List Char) : VRes :=
  if fullvin.length ≠ 17 then VRes.fail ValidationError.lengthError
  else if containsIOQ fullvin then VRes.fail ValidationError.illegalCharacterError
  else
    match goSlice fullvin 8 9 with
    | none => VRes.panics
    | some cd =>
      match calculateScore fullvin with
      | none => VRes.panics
      | some score =>
        if String.mk cd ≠ score then
          VRes.fail (ValidationError.checkDigitError (String.mk cd) score)
        else VRes.ok

/-- Modelled from the spec: the `ModelYearTable`, "a fixed mapping from 30
distinguishable alphanumeric characters to a year-offset 0–29" with the
anchors 1980 and 2010 (so 'Y' carries offset 20, matching the spec's worked
example "offset 20 → candidates 2000 and 2030").  The function `getCharWeight`
that reads it is declared in another file of the `core` package that is not
part of the sources. -/
def ModelYearTable (c : Char) : Option Nat :=
  match c with
  | 'A' => some 0
  | 'B' => some 1
  | 'C' => some 2
  | 'D' => some 3
  | 'E' => some 4
  | 'F' => some 5
  | 'G' => some 6
  | 'H' => some 7
  | 'J' => some 8
  | 'K' => some 9
  | 'L' => some 10
  | 'M' => some 11
  | 'N' => some 12
  | 'P' => some 13
  | 'R' => some 14
  | 'S' => some 15
  | 'T' => some 16
  | 'V' => some 17
  | 'W' => some 18
  | 'X' => some 19
  | 'Y' => some 20
  | '1' => some 21
  | '2' => some 22
  | '3' => some 23
  | '4' => some 24
  | '5' => some 25
  | '6' => some 26
  | '7' => some 27
  | '8' => some 28
  | '9' => some 29
  | _ => none

/-- Modelled from the spec: `getCharWeight`, the missing table reader used by
`manufactureYear`.  It receives the one-character string `m.Full[9:10]` and
returns an `int`; a Go map lookup that ignores the `ok` flag yields the zero
value `0` for a character that has no table entry. -/
def getCharWeight (digit : List Char) : Nat :=
  match digit with
  | [c] => (ModelYearTable c).getD 0
  | _ => 0

/-- `manufactureYear` from `vin.go`, with `time.Now().Year()` passed in as
`maxYear`.  A weight of `0` is treated by the source as "unable to get a
weight" (`none`); otherwise each cycle anchor 1980, 2010 contributes
`anchor + weight` when that year is strictly below `maxYear`. -/
def manufactureYear (digit : List Char) (maxYear : Int) : Option (List Int) :=
  let charWeight := getCharWeight digit
  if charWeight = 0 then none
  else
    some ((([1980, 2010] : List Int).map (fun v => v + (charWeight : Int))).filter
      (fun year => decide (year < maxYear)))

/-- Modelled from the spec: the opaque manufacturer record returned by the
WMI lookup collaborator (`WMInfo` is declared elsewhere in the `core`
package); `deconstruct` reads only its `Manufacturer` field. -/
structure WMInfo where
  Manufacturer : String
deriving DecidableEq, Repr

namespace vds

/-- Modelled from the spec: the opaque descriptor record of package
`core/vds` ("opaque record obtained from the VDS lookup collaborator"); only
its identity matters here.  `{}` is Go's zero value. -/
structure VDSInfo where
  tag : Nat := 0
deriving DecidableEq, Repr

end vds

/-- The `VIN` entity of `vin.go` (persistence tags dropped).  Go zero values
are the field defaults. -/
structure VIN where
  Full : List Char
  Unique : List Char := []
  Serial : Int := 0
  WMInfo : WMInfo := { Manufacturer := "" }
  VDSInfo : vds.VDSInfo := {}
deriving DecidableEq, Repr

/-- The errors the decode pipeline can return: the two collaborator
"not found" failures and `manufactureYear`'s weight error. -/
inductive DecodeError where
  | manufacturerNotFound
  | yearWeightError
  | descriptorNotFound
deriving DecidableEq, Repr

/-- The two external lookup collaborators, as pure functions: `none` is the
collaborator's "not found" error. -/
structure Collab where
  findWMInfo : List Char → Option WMInfo
  findVDSInfo : String → List Char → List Int → Option vds.VDSInfo

/-- `getUniqueSerial` from `vin.go`: `fullvin[:11]` paired with
`strconv.Atoi(fullvin[11:])`, the parse error discarded.  Both slices panic
(`none`) when the string is shorter than 11 characters. -/
def getUniqueSerial (fullvin : List Char) : Option (List Char × Int) :=
  match goSlice fullvin 11 fullvin.length, goSlice fullvin 0 11 with
  | some tl, some hd => some (hd, goAtoi tl)
  | _, _ => none

/-- `deconstruct` from `vin.go`, traced: the result (`none` is a panic)
together with the number of `FindWMInfo` and `FindVDSInfo` invocations the
run performs.  Note the source assigns `Unique`, `Serial` and `WMInfo` but
DISCARDS the record returned by `vds.FindVDSInfo` (`_, err = ...`), so the
`VDSInfo` field is never written. -/
def deconstructT (C : Collab) (maxYear : Int) (m : VIN) :
    Option (Except DecodeError VIN) × Nat × Nat :=
  match getUniqueSerial m.Full with
  | none => (none, 0, 0)
  | some (u, ser) =>
    let m1 : VIN := { m with Unique := u, Serial := ser }
    match C.findWMInfo m1.Unique with
    | none => (some (Except.error DecodeError.manufacturerNotFound), 1, 0)
    | some wmiInfo =>
      let m2 : VIN := { m1 with WMInfo := wmiInfo }
      match goSlice m2.Full 9 10 with
      | none => (none, 1, 0)
      | some yc =>
        match manufactureYear yc maxYear with
        | none => (some (Except.error DecodeError.yearWeightError), 1, 0)
        | some years =>
          match C.findVDSInfo wmiInfo.Manufacturer m2.Unique years with
          | none => (some (Except.error DecodeError.descriptorNotFound), 1, 1)
          | some _ => (some (Except.ok m2), 1, 1)

/-- `deconstruct`'s observable result. -/
def deconstruct (C : Collab) (maxYear : Int) (m : VIN) :
    Option (Except DecodeError VIN) :=
  (deconstructT C maxYear m).1

/-- `newVIN` from `vin.go`: build `&VIN{Full: fullvin}` and run `deconstruct`
once on it. -/
def newVIN (C : Collab) (maxYear : Int) (fullvin : List Char) :
    Option (Except DecodeError VIN) :=
  deconstruct C maxYear { Full := fullvin }

/-- `BuildInfo` from `vin.go`, traced: `newVIN` (which already deconstructs)
followed by a second `deconstruct` on the same value; collaborator invocation
counts are accumulated across both runs. -/
def buildStep (C : Collab) (maxYear : Int)
    (t1 : Option (Except DecodeError VIN) × Nat × Nat) :
    Option (Except DecodeError VIN) × Nat × Nat :=
  match t1 with
  | (none, a, b) => (none, a, b)
  | (some (Except.error e), a, b) => (some (Except.error e), a, b)
  | (some (Except.ok vin), a, b) =>
    let t2 := deconstructT C maxYear vin
    (t2.1, a + t2.2.1, b + t2.2.2)

def BuildInfoT (C : Collab) (maxYear : Int) (fullvin : List Char) :
    Option (Except DecodeError VIN) × Nat × Nat :=
  buildStep C maxYear (deconstructT C maxYear { Full := fullvin })

/-- `BuildInfo`'s observable result. -/
def BuildInfo (C : Collab) (maxYear : Int) (fullvin : List Char) :
    Option (Except DecodeError VIN) :=
  (BuildInfoT C maxYear fullvin).1

/-- Concrete collaborators for closed evaluations: every prefix is known to
the WMI lookup and every descriptor query returns the record tagged `1`. -/
def Ctest : Collab where
  findWMInfo := fun _ => some { Manufacturer := "HONDA" }
  findVDSInfo := fun _ _ _ => some { tag := 1 }

/-! ## Spec-side definitions

These follow the wording of the specification, for comparison with the
source-side definitions above. -/

/-- The valid scoring charset of the claims: decimal digits and the 23
letters in the character table (A–Z without I, O, Q). -/
def validChar (c : Char) : Bool :=
  c.isDigit || (getCharacterMap c).isSome

/-- Character value as the spec words it: "digits map to their own value;
letters map through CharacterWeightTable". -/
def specCharValue (c : Char) : Nat :=
  if c.isDigit then c.toNat - '0'.toNat else (getCharacterMap c).getD 0

/-- The check character as the spec words it: multiply each position's value
by the position weight, sum all 17 products, take modulo 11; remainder 10 is
the literal letter X, otherwise the decimal digit equal to the remainder. -/
def specCheckChar (s : List Char) : String :=
  let total := (List.zipWith (fun c w => specCharValue c * w) s weights).sum
  if total % 11 = 10 then "X"
  else String.mk [Char.ofNat ('0'.toNat + total % 11)]

/-- A one-character string holding a decimal digit. -/
def singleDigitStr (t : String) : Bool :=
  match t.data with
  | [c] => c.isDigit
  | _ => false

/-- The integer denoted by a string of decimal digits (spec-side reading of
the serial substring). -/
def decimalVal (d : List Char) : Nat :=
  d.foldl (fun a c => a * 10 + (c.toNat - '0'.toNat)) 0

/-! ## Helper lemmas -/

theorem getCharacterMap_not_digit (c : Char) (h : (getCharacterMap c).isSome = true) :
    c.isDigit = false := by
  unfold getCharacterMap at h
  split at h <;> first | rfl | simp at h

theorem goAtoiE_single (c : Char) :
    goAtoiE [c] = if c.isDigit then some ((c.toNat - '0'.toNat : Nat) : Int) else none := by
  by_cases h1 : c = '-'
  · subst h1; simp [goAtoiE, digitsVal]
  · by_cases h2 : c = '+'
    · subst h2; simp [goAtoiE, digitsVal]
    · by_cases hd : c.isDigit <;>
        simp [goAtoiE, h1, h2, digitsVal, digitsValAux, hd]

theorem charValue_eq_spec (c : Char) (h : validChar c = true) :
    charValue c = some (specCharValue c) := by
  unfold charValue specCharValue
  cases hm : getCharacterMap c with
  | some v =>
    have hd : c.isDigit = false := getCharacterMap_not_digit c (by simp [hm])
    simp [hm, hd]
  | none =>
    have hd : c.isDigit = true := by
      unfold validChar at h
      simpa [hm] using h
    simp [goAtoiE_single, hd]

theorem scoreSum_eq_spec (s : List Char) (ws : List Nat)
    (hv : ∀ c ∈ s, validChar c = true) (hl : s.length ≤ ws.length) :
    scoreSum s ws =
      some ((List.zipWith (fun c w => specCharValue c * w) s ws).sum) := by
  induction s generalizing ws with
  | nil => simp [scoreSum]
  | cons c cs ih =>
    cases ws with
    | nil => simp at hl
    | cons w tws =>
      have hc : validChar c = true := hv c (List.mem_cons_self c cs)
      have hcs : ∀ x ∈ cs, validChar x = true := fun x hx => hv x (List.mem_cons_of_mem c hx)
      have hl' : cs.length ≤ tws.length := by simpa using hl
      simp [scoreSum, charValue_eq_spec c hc, ih tws hcs hl']

theorem repr_eq_digitStr (r : Nat) (h : r < 11) (h10 : r ≠ 10) :
    Nat.repr r = String.mk [Char.ofNat ('0'.toNat + r)] := by
  revert h10
  revert h
  revert r
  decide

/-- Core refinement: on a 17-character charset-valid string, the source's
`calculateScore` returns exactly the spec-side check character. -/
theorem calculateScore_eq_spec (s : List Char) (h17 : s.length = 17)
    (hv : ∀ c ∈ s, validChar c = true) :
    calculateScore s = some (specCheckChar s) := by
  have hw : s.length ≤ weights.length := by rw [h17]; rfl
  unfold calculateScore specCheckChar
  rw [scoreSum_eq_spec s weights hv hw]
  set total := (List.zipWith (fun c w => specCharValue c * w) s weights).sum with htot
  by_cases hmod : total % 11 = 10
  · simp [hmod]
  · have hlt : total % 11 < 11 := Nat.mod_lt _ (by norm_num)
    simp [hmod, repr_eq_digitStr (total % 11) hlt hmod]

theorem getUniqueSerial_eq (s : List Char) (h : 11 ≤ s.length) :
    getUniqueSerial s = some (s.take 11, goAtoi (s.drop 11)) := by
  unfold getUniqueSerial goSlice
  rw [if_pos ⟨h, Nat.le_refl _⟩, if_pos ⟨Nat.zero_le _, h⟩]
  rw [List.take_of_length_le (by simp), List.drop_zero]

theorem digitsValAux_eq_foldl (d : List Char) (acc : Nat)
    (hd : ∀ c ∈ d, c.isDigit = true) :
    digitsValAux acc d =
      some (d.foldl (fun a c => a * 10 + (c.toNat - '0'.toNat)) acc) := by
  induction d generalizing acc with
  | nil => rfl
  | cons c cs ih =>
    have hc : c.isDigit = true := hd c (List.mem_cons_self c cs)
    have hcs : ∀ x ∈ cs, x.isDigit = true := fun x hx => hd x (List.mem_cons_of_mem c hx)
    simp [digitsValAux, hc, ih _ hcs]

theorem digit_ne_sign (c : Char) (h : c.isDigit = true) : c ≠ '-' ∧ c ≠ '+' := by
  constructor <;> rintro rfl <;> simp [Char.isDigit] at h

theorem goAtoi_digits (d : List Char) (hne : d ≠ [])
    (hd : ∀ c ∈ d, c.isDigit = true) :
    goAtoi d = (decimalVal d : Int) := by
  cases d with
  | nil => exact absurd rfl hne
  | cons c cs =>
    have hc : c.isDigit = true := hd c (List.mem_cons_self c cs)
    obtain ⟨hm, hp⟩ := digit_ne_sign c hc
    simp only [goAtoi, goAtoiE, if_neg hm, if_neg hp, digitsVal]
    rw [digitsValAux_eq_foldl (c :: cs) 0 hd]
    rfl

theorem goAtoi_nonneg (l : List Char) (h : l.head? ≠ some '-') :
    0 ≤ goAtoi l := by
  cases l with
  | nil => simp [goAtoi, goAtoiE]
  | cons c cs =>
    have hm : c ≠ '-' := by simpa using h
    simp only [goAtoi, goAtoiE, if_neg hm]
    by_cases hp : c = '+'
    · rw [if_pos hp]
      cases digitsVal cs <;> simp
    · rw [if_neg hp]
      cases digitsVal (c :: cs) <;> simp

/-- A successful `deconstruct` run is a fixed point: running it again on its
own output performs one WMI lookup and one VDS lookup and returns the same
value.  (`deconstruct` recomputes `Unique`, `Serial` and `WMInfo` from `Full`,
which it never changes, and leaves `VDSInfo` alone.) -/
theorem deconstruct_ok_fix (C : Collab) (y : Int) (m v : VIN)
    (h : (deconstructT C y m).1 = some (Except.ok v)) :
    deconstructT C y m = (some (Except.ok v), 1, 1) ∧
      deconstructT C y v = (some (Except.ok v), 1, 1) := by
  obtain ⟨full, uq, sr, wm, vd⟩ := m
  cases h1 : getUniqueSerial full with
  | none => simp [deconstructT, h1] at h
  | some us =>
    obtain ⟨u, ser⟩ := us
    cases h2 : C.findWMInfo u with
    | none => simp [deconstructT, h1, h2] at h
    | some w =>
      cases h3 : goSlice full 9 10 with
      | none => simp [deconstructT, h1, h2, h3] at h
      | some yc =>
        cases h4 : manufactureYear yc y with
        | none => simp [deconstructT, h1, h2, h3, h4] at h
        | some ys =>
          cases h5 : C.findVDSInfo w.Manufacturer u ys with
          | none => simp [deconstructT, h1, h2, h3, h4, h5] at h
          | some d =>
            have hv : v = (⟨full, u, ser, w, vd⟩ : VIN) := by
              simp [deconstructT, h1, h2, h3, h4, h5] at h
              exact h.symm
            subst hv
            refine ⟨by simp [deconstructT, h1, h2, h3, h4, h5], ?_⟩
            simp [deconstructT, h1, h2, h3, h4, h5]

/-! ## Concrete inputs used by closed theorems -/

/-- A 17-character input whose model-year character (position 9) is 'B' and
whose serial digits are all zero. -/
def vinB : List Char := "AAAAAAAAABA000000".toList

/-- The value `BuildInfo Ctest 2025 vinB` succeeds with: `Unique`, `Serial`
and `WMInfo` populated, `VDSInfo` left at Go's zero value. -/
def vinBDecoded : VIN :=
  ⟨vinB, "AAAAAAAAABA".toList, 0, ⟨"HONDA"⟩, {}⟩

/-- A 17-character input whose last six characters are `-12345`. -/
def vinNeg : List Char := "AAAAAAAAABA-12345".toList

/-- The classic example VIN of the spec's end-to-end scenario. -/
def vinHonda : List Char := "1HGCM82633A004352".toList

/-- A 17-character string containing the reserved letter 'I' and the
unscorable character '-'. -/
def vinIOQ : List Char := "IAAAAAAAA-AAAAAAA".toList

/-! ## Claim theorems -/

/-- Claim C1 (code_bug evidence). The claim says `BuildInfo` first runs the
validator and returns `LengthError` on the empty string.  In the source
`BuildInfo` never calls `ValidateVIN`; on the empty string it reaches
`getUniqueSerial`, whose slice `fullvin[11:]` is out of range, so the program
panics (`none`) for every choice of collaborators and calendar year — it
neither runs the validator nor returns any error value. -/
theorem claim1_buildInfo_empty_panics (C : Collab) (y : Int) :
    BuildInfo C y [] = none := rfl

/-- Claim C2 (code_bug evidence). The claim says a successful decode holds in
`VDSInfo` exactly the record the VDS lookup collaborator returned.  With a
collaborator that answers every descriptor query with the record tagged `1`,
`BuildInfo` succeeds on `vinB` — yet the decoded value carries `VDSInfo`'s
zero value `{}`, because `deconstruct` discards the lookup result
(`_, err = vds.FindVDSInfo(...)`). -/
theorem claim2_vdsinfo_not_populated :
    BuildInfo Ctest 2025 vinB = some (Except.ok vinBDecoded) ∧
      Ctest.findVDSInfo "HONDA" ("AAAAAAAAABA".toList) [1981, 2011] =
        some ⟨1⟩ ∧
      vinBDecoded.VDSInfo = ({} : vds.VDSInfo) ∧
      (⟨1⟩ : vds.VDSInfo) ≠ ({} : vds.VDSInfo) := by
  exact ⟨rfl, rfl, rfl, by decide⟩

/-- Claim C3 (code_bug evidence). The claim says a model-year character with
table offset 0 resolves (at current year 2025) to `[1980, 2010]`, and that
only characters without a table entry give an error.  'A' carries table
offset 0, but `manufactureYear` treats the weight 0 as its "unable to get a
weight" sentinel and returns the error (`none`) instead of succeeding. -/
theorem claim3_offset0_errors :
    ModelYearTable 'A' = some 0 ∧ manufactureYear ['A'] 2025 = none :=
  ⟨rfl, rfl⟩

/-- Claim C6. Every string of length exactly 17 containing at least one of
'I', 'O', 'Q' is rejected by `ValidateVIN` with the illegal-character error,
whatever the other characters are: the charset gate fires before the check
digit computation is reached. -/
theorem claim6_illegal_char_error (s : List Char) (h17 : s.length = 17)
    (hioq : ∃ c ∈ s, c = 'I' ∨ c = 'O' ∨ c = 'Q') :
    ValidateVIN s = VRes.fail ValidationError.illegalCharacterError := by
  have hc : containsIOQ s = true := by
    obtain ⟨c, hmem, hc⟩ := hioq
    unfold containsIOQ
    rw [List.any_eq_true]
    refine ⟨c, hmem, ?_⟩
    rcases hc with rfl | rfl | rfl <;> rfl
  unfold ValidateVIN
  rw [if_neg (by omega), if_pos hc]

/-- Witness for C6: `vinIOQ` has 17 characters, contains 'I' (and even the
unscorable '-'), and is rejected with the illegal-character error. -/
theorem claim6_witness :
    (vinIOQ.length = 17 ∧ ∃ c ∈ vinIOQ, c = 'I' ∨ c = 'O' ∨ c = 'Q') ∧
      ValidateVIN vinIOQ = VRes.fail ValidationError.illegalCharacterError := by
  have h17 : vinIOQ.length = 17 := by decide
  have hioq : ∃ c ∈ vinIOQ, c = 'I' ∨ c = 'O' ∨ c = 'Q' :=
    ⟨'I', by decide, Or.inl rfl⟩
  exact ⟨⟨h17, hioq⟩, claim6_illegal_char_error vinIOQ h17 hioq⟩

/-- Counterexample to claim C7 as stated: the 17-character input `vinNeg`
(last six characters `-12345`) yields a fully constructed `VIN` whose
`Serial` is the negative number `-12345` — `strconv.Atoi` accepts a leading
sign, so the parse neither fails nor stays non-negative. -/
theorem claim7_counterexample :
    BuildInfo Ctest 2025 vinNeg =
      some (Except.ok ⟨vinNeg, "AAAAAAAAABA".toList, -12345, ⟨"HONDA"⟩, {}⟩) ∧
      (-12345 : Int) < 0 :=
  ⟨rfl, by decide⟩

/-- Claim C7 as amended: for a 17-character input whose serial substring
(positions 11–16) does not start with '-', the parsed serial is
non-negative, and when `Atoi` reports a syntax error the serial is 0 rather
than an arbitrary value. -/
theorem claim7_serial_nonneg_amended (s : List Char) (h17 : s.length = 17)
    (hsign : (s.drop 11).head? ≠ some '-') :
    getUniqueSerial s = some (s.take 11, goAtoi (s.drop 11)) ∧
      0 ≤ goAtoi (s.drop 11) ∧
      (goAtoiE (s.drop 11) = none → goAtoi (s.drop 11) = 0) := by
  refine ⟨getUniqueSerial_eq s (by omega), goAtoi_nonneg _ hsign, fun he => ?_⟩
  simp [goAtoi, he]

/-- Witness for the amended C7, on the spec's example VIN. -/
theorem claim7_witness :
    ((vinHonda.length = 17 ∧ (vinHonda.drop 11).head? ≠ some '-') ∧
      getUniqueSerial vinHonda = some (vinHonda.take 11, goAtoi (vinHonda.drop 11)) ∧
      0 ≤ goAtoi (vinHonda.drop 11) ∧
      (goAtoiE (vinHonda.drop 11) = none → goAtoi (vinHonda.drop 11) = 0)) := by
  have h17 : vinHonda.length = 17 := by decide
  have hs : (vinHonda.drop 11).head? ≠ some '-' := by decide
  exact ⟨⟨h17, hs⟩, claim7_serial_nonneg_amended vinHonda h17 hs⟩

/-- Claim C8. Round-trip of the decomposition: an 11-character prefix
concatenated with 6 decimal digits is split by `getUniqueSerial` into exactly
that prefix and the integer the digits denote. -/
theorem claim8_decompose_roundtrip (p d : List Char) (hp : p.length = 11)
    (hd6 : d.length = 6) (hdig : ∀ c ∈ d, c.isDigit = true) :
    getUniqueSerial (p ++ d) = some (p, (decimalVal d : Int)) := by
  have hlen : 11 ≤ (p ++ d).length := by simp [hp, hd6]
  have hne : d ≠ [] := by intro h; rw [h] at hd6; simp at hd6
  rw [getUniqueSerial_eq _ hlen, List.take_left' hp, List.drop_left' hp,
    goAtoi_digits d hne hdig]

/-- Witness for C8 on the spec's example: prefix `1HGCM82633A`, digits
`004352`, recovered serial 4352. -/
theorem claim8_witness :
    (("1HGCM82633A".toList.length = 11 ∧ "004352".toList.length = 6 ∧
        ∀ c ∈ "004352".toList, c.isDigit = true) ∧
      getUniqueSerial ("1HGCM82633A".toList ++ "004352".toList) =
        some ("1HGCM82633A".toList, (4352 : Int))) := by
  have h1 : "1HGCM82633A".toList.length = 11 := by decide
  have h2 : "004352".toList.length = 6 := by decide
  have h3 : ∀ c ∈ "004352".toList, c.isDigit = true := by decide
  refine ⟨⟨h1, h2, h3⟩, ?_⟩
  rw [claim8_decompose_roundtrip _ _ h1 h2 h3]
  rfl

/-- Claim C4. On every 17-character string over the valid charset, the
source's `calculateScore` returns exactly the check character described by
the spec's formula (`specCheckChar`): transliterate, weight, sum, modulo 11,
X for remainder 10, otherwise the decimal digit of the remainder. -/
theorem claim4_check_digit_formula (s : List Char) (h17 : s.length = 17)
    (hv : ∀ c ∈ s, validChar c = true) :
    calculateScore s = some (specCheckChar s) :=
  calculateScore_eq_spec s h17 hv

/-- Witness for C4 on the spec's example VIN. -/
theorem claim4_witness :
    ((vinHonda.length = 17 ∧ ∀ c ∈ vinHonda, validChar c = true) ∧
      calculateScore vinHonda = some (specCheckChar vinHonda)) := by
  have h17 : vinHonda.length = 17 := by decide
  have hv : ∀ c ∈ vinHonda, validChar c = true := by decide
  exact ⟨⟨h17, hv⟩, claim4_check_digit_formula vinHonda h17 hv⟩

/-- Claim C5. `calculateScore` is deterministic (definitionally: it is a pure
function, so equal inputs give equal outputs), and two charset-valid
17-character inputs that differ only at position 8 — written `a ++ x :: b`
and `a ++ y :: b` with `|a| = |b| = 8` — receive the same check character,
because position 8 carries weight 0. -/
theorem claim5_deterministic_pos8 (a b : List Char) (x y : Char)
    (ha : a.length = 8) (hb : b.length = 8)
    (hva : ∀ c ∈ a, validChar c = true) (hvb : ∀ c ∈ b, validChar c = true)
    (hx : validChar x = true) (hy : validChar y = true) :
    calculateScore (a ++ x :: b) = calculateScore (a ++ y :: b) ∧
      calculateScore (a ++ x :: b) = calculateScore (a ++ x :: b) := by
  refine ⟨?_, rfl⟩
  have hlx : (a ++ x :: b).length = 17 := by simp [ha, hb]
  have hly : (a ++ y :: b).length = 17 := by simp [ha, hb]
  have hmem : ∀ z : Char, validChar z = true → ∀ c ∈ a ++ z :: b, validChar c = true := by
    intro z hz c hc
    rcases List.mem_append.1 hc with h | h
    · exact hva c h
    · rcases List.mem_cons.1 h with rfl | h
      · exact hz
      · exact hvb c h
  rw [calculateScore_eq_spec _ hlx (hmem x hx), calculateScore_eq_spec _ hly (hmem y hy)]
  have hw8 : a.length = ([8, 7, 6, 5, 4, 3, 2, 10] : List Nat).length := by rw [ha]; rfl
  have hsplit : weights = [8, 7, 6, 5, 4, 3, 2, 10] ++ 0 :: [9, 8, 7, 6, 5, 4, 3, 2] := rfl
  have htot : (List.zipWith (fun c w => specCharValue c * w) (a ++ x :: b) weights).sum
      = (List.zipWith (fun c w => specCharValue c * w) (a ++ y :: b) weights).sum := by
    rw [hsplit, List.zipWith_append _ _ _ _ _ hw8, List.zipWith_append _ _ _ _ _ hw8]
    simp [List.sum_append]
  unfold specCheckChar
  rw [htot]

/-- Witness for C5: two concrete charset-valid inputs differing only in
position 8 ('A' vs 'B') get the same computed check character. -/
theorem claim5_witness :
    (("11111111".toList.length = 8 ∧ "22222222".toList.length = 8 ∧
        (∀ c ∈ "11111111".toList, validChar c = true) ∧
        (∀ c ∈ "22222222".toList, validChar c = true) ∧
        validChar 'A' = true ∧ validChar 'B' = true) ∧
      calculateScore ("11111111".toList ++ 'A' :: "22222222".toList) =
        calculateScore ("11111111".toList ++ 'B' :: "22222222".toList)) := by
  have h1 : "11111111".toList.length = 8 := by decide
  have h2 : "22222222".toList.length = 8 := by decide
  have h3 : ∀ c ∈ "11111111".toList, validChar c = true := by decide
  have h4 : ∀ c ∈ "22222222".toList, validChar c = true := by decide
  have h5 : validChar 'A' = true := by decide
  have h6 : validChar 'B' = true := by decide
  exact ⟨⟨h1, h2, h3, h4, h5, h6⟩,
    (claim5_deterministic_pos8 _ _ 'A' 'B' h1 h2 h3 h4 h5 h6).1⟩

/-- Claim C9. Whenever `BuildInfo` succeeds it has run `deconstruct` twice on
the same VIN, performing exactly two WMI lookups and two VDS lookups, and the
value it returns is the one already produced by the single `deconstruct` run
inside `newVIN`: the second run is redundant. -/
theorem claim9_buildinfo_idem (C : Collab) (y : Int) (s : List Char) (v : VIN)
    (h : BuildInfo C y s = some (Except.ok v)) :
    (BuildInfoT C y s).2 = (2, 2) ∧ newVIN C y s = some (Except.ok v) := by
  have hfirst : ∃ vin1, (deconstructT C y { Full := s }).1 = some (Except.ok vin1) := by
    rcases hr : deconstructT C y { Full := s } with ⟨r0, n1, n2⟩
    cases r0 with
    | none =>
      unfold BuildInfo BuildInfoT at h
      rw [hr] at h
      simp [buildStep] at h
    | some ex =>
      cases ex with
      | error e =>
        unfold BuildInfo BuildInfoT at h
        rw [hr] at h
        simp [buildStep] at h
      | ok vin1 => exact ⟨vin1, rfl⟩
  obtain ⟨vin1, h1⟩ := hfirst
  obtain ⟨hfix1, hfix2⟩ := deconstruct_ok_fix C y { Full := s } vin1 h1
  have hB : BuildInfoT C y s = (some (Except.ok vin1), 2, 2) := by
    unfold BuildInfoT
    rw [hfix1]
    simp [buildStep, hfix2]
  have hv : vin1 = v := by
    unfold BuildInfo at h
    rw [hB] at h
    simpa using h
  subst hv
  refine ⟨by rw [hB], ?_⟩
  unfold newVIN deconstruct
  rw [h1]

/-- Witness for C9: on `vinB` with the `Ctest` collaborators, `BuildInfo`
succeeds, performed each lookup twice, and returned exactly the single-run
(`newVIN`) value. -/
theorem claim9_witness :
    BuildInfo Ctest 2025 vinB = some (Except.ok vinBDecoded) ∧
      (BuildInfoT Ctest 2025 vinB).2 = (2, 2) ∧
      newVIN Ctest 2025 vinB = some (Except.ok vinBDecoded) := by
  have h : BuildInfo Ctest 2025 vinB = some (Except.ok vinBDecoded) := rfl
  exact ⟨h, claim9_buildinfo_idem Ctest 2025 vinB vinBDecoded h⟩

theorem digitStr_single : ∀ r : Nat, r < 11 → r ≠ 10 →
    singleDigitStr (String.mk [Char.ofNat ('0'.toNat + r)]) = true := by
  decide

/-- Claim C10. On a 17-character string over the valid charset,
`calculateScore` cannot panic: the `Atoi` branch always succeeds and every
weight index is in range; the result is the string "X" or a single decimal
digit, and consequently `ValidateVIN` on such input returns a verdict, never
a panic. -/
theorem claim10_no_panic (s : List Char) (h17 : s.length = 17)
    (hv : ∀ c ∈ s, validChar c = true) :
    (calculateScore s).isSome = true ∧
      ((calculateScore s).getD "" = "X" ∨
        singleDigitStr ((calculateScore s).getD "") = true) ∧
      ValidateVIN s ≠ VRes.panics := by
  have hs := calculateScore_eq_spec s h17 hv
  refine ⟨by rw [hs]; rfl, ?_, ?_⟩
  · rw [hs]
    unfold specCheckChar
    set total := (List.zipWith (fun c w => specCharValue c * w) s weights).sum with htot
    by_cases hmod : total % 11 = 10
    · left; simp [hmod]
    · right
      have hlt : total % 11 < 11 := Nat.mod_lt _ (by norm_num)
      simp only [hmod, if_false, Option.getD_some]
      exact digitStr_single (total % 11) hlt hmod
  · unfold ValidateVIN
    rw [if_neg (by omega)]
    cases hioq : containsIOQ s with
    | true => simp
    | false =>
      have h89 : goSlice s 8 9 = some ((s.drop 8).take 1) := by
        unfold goSlice
        rw [if_pos ⟨by norm_num, by omega⟩]
      simp only [Bool.false_eq_true, if_false, h89, hs]
      split <;> simp

/-- Witness for C10 on the spec's example VIN. -/
theorem claim10_witness :
    ((vinHonda.length = 17 ∧ ∀ c ∈ vinHonda, validChar c = true) ∧
      (calculateScore vinHonda).isSome = true ∧
      ((calculateScore vinHonda).getD "" = "X" ∨
        singleDigitStr ((calculateScore vinHonda).getD "") = true) ∧
      ValidateVIN vinHonda ≠ VRes.panics) := by
  have h17 : vinHonda.length = 17 := by decide
  have hv : ∀ c ∈ vinHonda, validChar c = true := by decide
  exact ⟨⟨h17, hv⟩, claim10_no_panic vinHonda h17 hv⟩

end Vin
